import Mathlib

/-!
Shallow embedding of `src/oauth/apigee/lib/apigeeruntime.js` (the Apigee
OAuth runtime SPI): the JavaScript value model, the Node builtins the file
uses (`JSON.parse`, `JSON.stringify`, `querystring.parse`,
`querystring.stringify`, `parseInt`, base64, `url.parse` protocol
extraction), the three response interpreters (`requestComplete`,
`getRequestComplete`, `verifyRequestComplete`), the request dispatchers
(`makeRequest`, `makeGetRequest`), the per-grant error remappings, the
request builders and `setFlowVariables`.

Modelling conventions:
- JavaScript numbers are modelled as integers (`Int`) plus a `nan`
  constructor; no response field in this module is ever a fractional
  number, and JSON number literals are modelled with the integer grammar.
- `undefined` is modelled as `Option.none` at each use site; JSON `null`
  is the explicit `JsValue.null`.
- A thrown (uncaught) JavaScript exception inside a response handler is
  the `Outcome.thrown` result: the completion callback is never invoked.
- Percent decoding is modelled bytewise on ASCII (multi-byte UTF-8
  percent sequences are out of scope for every claim).
-/

/-- Character constants used instead of literals for quote and braces. -/
def dquoteC : Char := Char.ofNat 34

/-- Left brace character. -/
def lbraceC : Char := Char.ofNat 123

/-- Right brace character. -/
def rbraceC : Char := Char.ofNat 125

/-- JavaScript values as this module observes them: JSON data plus NaN. -/
inductive JsValue where
  | null : JsValue
  | bool : Bool → JsValue
  | num : Int → JsValue
  | nan : JsValue
  | str : String → JsValue
  | arr : List JsValue → JsValue
  | obj : List (String × JsValue) → JsValue

/-- Property lookup on an object's field list: first matching key. -/
def lookupField : List (String × JsValue) → String → Option JsValue
  | [], _ => none
  | (k, v) :: rest, name => if k = name then some v else lookupField rest name

/-- Property assignment on an object's field list: JavaScript keeps the
first occurrence's position and replaces its value, or appends a new key. -/
def setFieldList : List (String × JsValue) → String → JsValue → List (String × JsValue)
  | [], name, x => [(name, x)]
  | (k, v) :: rest, name, x =>
    if k = name then (k, x) :: rest else (k, v) :: setFieldList rest name x

/-- Whitespace characters skipped by the JSON grammar and by `parseInt`. -/
def isWsChar (c : Char) : Bool :=
  c = ' ' || c = '\t' || c = '\n' || c = '\r'

/-- Drop leading whitespace from a character list. -/
def skipWsL : List Char → List Char
  | [] => []
  | c :: cs => if isWsChar c then skipWsL cs else c :: cs

/-- Value of a hex digit, if the character is one. -/
def hexVal (c : Char) : Option Nat :=
  if '0' ≤ c ∧ c ≤ '9' then some (c.toNat - 48)
  else if 'a' ≤ c ∧ c ≤ 'f' then some (c.toNat - 87)
  else if 'A' ≤ c ∧ c ≤ 'F' then some (c.toNat - 55)
  else none

/-- Numeric value of a list of decimal digits. -/
def digitsToNat (cs : List Char) : Nat :=
  cs.foldl (fun acc c => acc * 10 + (c.toNat - 48)) 0

/-- Split leading decimal digits off a character list; `none` when the
list does not start with a digit. -/
def digitsSplit (cs : List Char) : Option (Nat × List Char) :=
  let ds := cs.takeWhile Char.isDigit
  if ds.isEmpty then none else some (digitsToNat ds, cs.drop ds.length)

/-- Translate a JSON string escape character to the character it denotes. -/
def jsonEscChar (c : Char) : Option Char :=
  if c = dquoteC then some dquoteC
  else if c = '\\' then some '\\'
  else if c = '/' then some '/'
  else if c = 'n' then some '\n'
  else if c = 't' then some '\t'
  else if c = 'r' then some '\r'
  else if c = 'b' then some (Char.ofNat 8)
  else if c = 'f' then some (Char.ofNat 12)
  else none

/-- Fold a duplicate-keyed pair list into a JSON object field list: a later
key overwrites the value at the first occurrence's position, as
`JSON.parse` does. -/
def objFromPairs (pairs : List (String × JsValue)) : List (String × JsValue) :=
  pairs.foldl (fun acc kv => setFieldList acc kv.1 kv.2) []

mutual

/-- Parse the body of a JSON string (after the opening quote), returning
the string and the remaining input. Fueled; each step consumes input. -/
def parseStrF : Nat → List Char → Option (String × List Char)
  | 0, _ => none
  | Nat.succ fuel, cs =>
    match cs with
    | [] => none
    | c :: rest =>
      if c = dquoteC then some ("", rest)
      else if c = '\\' then
        match rest with
        | [] => none
        | e :: rest2 =>
          if e = 'u' then
            match rest2 with
            | a :: b :: c2 :: d :: rest3 =>
              match hexVal a, hexVal b, hexVal c2, hexVal d with
              | some ha, some hb, some hc, some hd =>
                match parseStrF fuel rest3 with
                | some (s, r) =>
                  some (String.mk (Char.ofNat (((ha * 16 + hb) * 16 + hc) * 16 + hd) :: s.data), r)
                | none => none
              | _, _, _, _ => none
            | _ => none
          else
            match jsonEscChar e with
            | some ch =>
              match parseStrF fuel rest2 with
              | some (s, r) => some (String.mk (ch :: s.data), r)
              | none => none
            | none => none
      else
        match parseStrF fuel rest with
        | some (s, r) => some (String.mk (c :: s.data), r)
        | none => none

/-- Parse one JSON value (with leading whitespace), returning it and the
remaining input. JSON numbers are modelled with the integer grammar. -/
def parseJsonValF : Nat → List Char → Option (JsValue × List Char)
  | 0, _ => none
  | Nat.succ fuel, cs =>
    match skipWsL cs with
    | [] => none
    | c :: rest =>
      if c = dquoteC then
        match parseStrF fuel rest with
        | some (s, r) => some (JsValue.str s, r)
        | none => none
      else if c = lbraceC then
        match parseJsonObjF fuel true rest with
        | some (pairs, r) => some (JsValue.obj (objFromPairs pairs), r)
        | none => none
      else if c = '[' then
        match parseJsonArrF fuel true rest with
        | some (xs, r) => some (JsValue.arr xs, r)
        | none => none
      else if c = 'n' then
        match rest with
        | 'u' :: 'l' :: 'l' :: r => some (JsValue.null, r)
        | _ => none
      else if c = 't' then
        match rest with
        | 'r' :: 'u' :: 'e' :: r => some (JsValue.bool true, r)
        | _ => none
      else if c = 'f' then
        match rest with
        | 'a' :: 'l' :: 's' :: 'e' :: r => some (JsValue.bool false, r)
        | _ => none
      else if c = '-' then
        match digitsSplit rest with
        | some (nv, r) => some (JsValue.num (-(Int.ofNat nv)), r)
        | none => none
      else if c.isDigit then
        match digitsSplit (c :: rest) with
        | some (nv, r) => some (JsValue.num (Int.ofNat nv), r)
        | none => none
      else none

/-- Parse the members of a JSON object after the opening brace (`first` is
true before any pair is read), returning the pair list in source order. -/
def parseJsonObjF : Nat → Bool → List Char → Option (List (String × JsValue) × List Char)
  | 0, _, _ => none
  | Nat.succ fuel, first, cs =>
    match skipWsL cs with
    | [] => none
    | c :: rest =>
      if c = rbraceC then some ([], rest)
      else
        let afterSep : Option (List Char) :=
          if first then some (c :: rest)
          else if c = ',' then some rest
          else none
        match afterSep with
        | none => none
        | some cs2 =>
          match skipWsL cs2 with
          | [] => none
          | k :: kr =>
            if k = dquoteC then
              match parseStrF fuel kr with
              | none => none
              | some (key, r2) =>
                match skipWsL r2 with
                | ':' :: r3 =>
                  match parseJsonValF fuel r3 with
                  | none => none
                  | some (v, r4) =>
                    match parseJsonObjF fuel false r4 with
                    | some (pairs, r5) => some ((key, v) :: pairs, r5)
                    | none => none
                | _ => none
            else none

/-- Parse the elements of a JSON array after the opening bracket. -/
def parseJsonArrF : Nat → Bool → List Char → Option (List JsValue × List Char)
  | 0, _, _ => none
  | Nat.succ fuel, first, cs =>
    match skipWsL cs with
    | [] => none
    | c :: rest =>
      if c = ']' then some ([], rest)
      else
        let afterSep : Option (List Char) :=
          if first then some (c :: rest)
          else if c = ',' then some rest
          else none
        match afterSep with
        | none => none
        | some cs2 =>
          match parseJsonValF fuel cs2 with
          | none => none
          | some (v, r2) =>
            match parseJsonArrF fuel false r2 with
            | some (xs, r3) => some (v :: xs, r3)
            | none => none

end

/-- Model of `JSON.parse`: the whole input (up to trailing whitespace)
must be one JSON value; `none` models the thrown `SyntaxError`. -/
def jsonParse (s : String) : Option JsValue :=
  match parseJsonValF (s.length + 2) s.data with
  | some (v, rest) => if skipWsL rest = [] then some v else none
  | none => none

mutual

/-- Model of JavaScript `String(v)` coercion for the values above. -/
def jsToString : JsValue → String
  | JsValue.null => "null"
  | JsValue.bool b => if b then "true" else "false"
  | JsValue.num n => toString n
  | JsValue.nan => "NaN"
  | JsValue.str s => s
  | JsValue.arr xs => joinCommaStr (jsToStringArrElems xs)
  | JsValue.obj _ => "[object Object]"

/-- Array elements under `Array.prototype.join`: `null` becomes empty. -/
def jsToStringArrElems : List JsValue → List String
  | [] => []
  | JsValue.null :: xs => "" :: jsToStringArrElems xs
  | x :: xs => jsToString x :: jsToStringArrElems xs

/-- Join strings with commas, as `Array.prototype.toString` does. -/
def joinCommaStr : List String → String
  | [] => ""
  | [s] => s
  | s :: rest => s ++ "," ++ joinCommaStr rest

end

/-- Coercion of a possibly-undefined value to a string (`String(undefined)`
is the text `undefined`). -/
def jsToStringOpt : Option JsValue → String
  | none => "undefined"
  | some v => jsToString v

/-- JavaScript truthiness of a value. -/
def jsTruthy : JsValue → Bool
  | JsValue.null => false
  | JsValue.bool b => b
  | JsValue.num n => n ≠ 0
  | JsValue.nan => false
  | JsValue.str s => s ≠ ""
  | JsValue.arr _ => true
  | JsValue.obj _ => true

/-- Truthiness of a possibly-undefined value. -/
def jsTruthyOpt : Option JsValue → Bool
  | none => false
  | some v => jsTruthy v

/-- Truthiness of a possibly-undefined string option field. -/
def strOptTruthy : Option String → Bool
  | none => false
  | some s => s ≠ ""

/-- Truthiness of a possibly-undefined numeric option field. -/
def intOptTruthy : Option Int → Bool
  | none => false
  | some n => n ≠ 0

/-- Model of `parseInt(s, 10)`: skip whitespace, optional sign, leading
decimal digits; `none` models `NaN`. Trailing junk is ignored. -/
def parseIntJs (s : String) : Option Int :=
  match skipWsL s.data with
  | [] => none
  | c :: rest =>
    if c = '-' then (digitsSplit rest).map (fun p => -(Int.ofNat p.1))
    else if c = '+' then (digitsSplit rest).map (fun p => Int.ofNat p.1)
    else (digitsSplit (c :: rest)).map (fun p => Int.ofNat p.1)

/-- Result of `parseInt` as a JavaScript value (`NaN` on failure). -/
def parseIntVal (s : String) : JsValue :=
  match parseIntJs s with
  | some n => JsValue.num n
  | none => JsValue.nan

/-- Values of `querystring.parse`: a plain string, or an array when the
same key occurs more than once in the input. -/
inductive QsVal where
  | str : String → QsVal
  | arr : List String → QsVal

/-- Truthiness of a form value: the empty string is falsy, arrays are
objects and always truthy. -/
def qsTruthy : QsVal → Bool
  | QsVal.str s => s ≠ ""
  | QsVal.arr _ => true

/-- String coercion of a form value (arrays join with commas). -/
def qsValToString : QsVal → String
  | QsVal.str s => s
  | QsVal.arr l => joinCommaStr l

/-- Form value as a JavaScript value (for the verify success result). -/
def qsValToJs : QsVal → JsValue
  | QsVal.str s => JsValue.str s
  | QsVal.arr l => JsValue.arr (l.map JsValue.str)

/-- Split a character list at every occurrence of a separator. -/
def splitOnChar (sep : Char) : List Char → List (List Char)
  | [] => [[]]
  | c :: cs =>
    let rest := splitOnChar sep cs
    if c = sep then [] :: rest
    else
      match rest with
      | piece :: more => (c :: piece) :: more
      | [] => [[c]]

/-- Model of JavaScript `s.split(sep)` for a one-character separator:
empty pieces are kept and `""` splits to `[""]`. -/
def jsSplit (sep : Char) (s : String) : List String :=
  (splitOnChar sep s.data).map String.mk

/-- Percent-decode a character list bytewise (ASCII model); malformed
percent escapes are kept literally, as Node's unescape does. -/
def percentDecode : List Char → List Char
  | [] => []
  | c :: rest =>
    if c = '%' then
      match rest with
      | a :: b :: rest2 =>
        match hexVal a, hexVal b with
        | some ha, some hb => Char.ofNat (ha * 16 + hb) :: percentDecode rest2
        | _, _ => c :: percentDecode (a :: b :: rest2)
      | other => c :: percentDecode other
    else c :: percentDecode rest

/-- Model of `querystring.unescape`: `+` becomes a space, then percent
sequences are decoded. -/
def qsUnescape (cs : List Char) : String :=
  String.mk (percentDecode (cs.map (fun c => if c = '+' then ' ' else c)))

/-- Split a form segment at its first `=`: key part and value part (a
segment without `=` has the empty value). -/
def splitFirstEq : List Char → List Char × List Char
  | [] => ([], [])
  | c :: cs =>
    if c = '=' then ([], cs)
    else
      let p := splitFirstEq cs
      (c :: p.1, p.2)

/-- Insert one decoded key/value pair as `querystring.parse` does: a
repeated key collects its values into an array. -/
def qsInsert (m : List (String × QsVal)) (k v : String) : List (String × QsVal) :=
  match m with
  | [] => [(k, QsVal.str v)]
  | (k0, v0) :: rest =>
    if k0 = k then
      match v0 with
      | QsVal.str s0 => (k0, QsVal.arr [s0, v]) :: rest
      | QsVal.arr l => (k0, QsVal.arr (l ++ [v])) :: rest
    else (k0, v0) :: qsInsert rest k v

/-- Model of `querystring.parse`: split on `&`, split each segment at its
first `=`, unescape both sides; empty segments are skipped. -/
def qsParse (s : String) : List (String × QsVal) :=
  (splitOnChar '&' s.data).foldl
    (fun m seg =>
      match seg with
      | [] => m
      | _ =>
        let p := splitFirstEq seg
        qsInsert m (qsUnescape p.1) (qsUnescape p.2))
    []

/-- Lookup in a parsed form (property access on the parse result). -/
def qsLookup : List (String × QsVal) → String → Option QsVal
  | [], _ => none
  | (k, v) :: rest, name => if k = name then some v else qsLookup rest name

/-- UTF-8 bytes of one character. -/
def utf8BytesOfChar (c : Char) : List Nat :=
  let n := c.toNat
  if n < 128 then [n]
  else if n < 2048 then [192 + n / 64, 128 + n % 64]
  else if n < 65536 then [224 + n / 4096, 128 + (n / 64) % 64, 128 + n % 64]
  else [240 + n / 262144, 128 + (n / 4096) % 64, 128 + (n / 64) % 64, 128 + n % 64]

/-- UTF-8 bytes of a string. -/
def utf8Bytes (s : String) : List Nat :=
  s.data.flatMap utf8BytesOfChar

/-- Character of the base64 alphabet at an index. -/
def b64Char (n : Nat) : Char :=
  if n < 26 then Char.ofNat (65 + n)
  else if n < 52 then Char.ofNat (97 + (n - 26))
  else if n < 62 then Char.ofNat (48 + (n - 52))
  else if n = 62 then '+'
  else '/'

/-- Base64 encoding of a byte list, with `=` padding, as
`Buffer.toString(base64)` produces. -/
def base64Chars : List Nat → List Char
  | [] => []
  | [a] => [b64Char (a / 4), b64Char (a % 4 * 16), '=', '=']
  | [a, b] => [b64Char (a / 4), b64Char (a % 4 * 16 + b / 16), b64Char (b % 16 * 4), '=']
  | a :: b :: c :: rest =>
    b64Char (a / 4) :: b64Char (a % 4 * 16 + b / 16) :: b64Char (b % 16 * 4 + c / 64)
      :: b64Char (c % 64) :: base64Chars rest

/-- Model of `new Buffer(s).toString(base64)`. -/
def base64OfString (s : String) : String :=
  String.mk (base64Chars (utf8Bytes s))

/-- Hex digit character (uppercase) of a value below 16. -/
def hexDigitUpper (n : Nat) : Char :=
  if n < 10 then Char.ofNat (48 + n) else Char.ofNat (55 + n)

/-- Bytes left unescaped by `querystring.escape` (`encodeURIComponent`):
alphanumerics and `- _ . ! ~ * ' ( )`. -/
def isUnreservedByte (n : Nat) : Bool :=
  (65 ≤ n && n ≤ 90) || (97 ≤ n && n ≤ 122) || (48 ≤ n && n ≤ 57) ||
    n = 45 || n = 95 || n = 46 || n = 33 || n = 126 || n = 42 || n = 39 ||
    n = 40 || n = 41

/-- Percent-escape a string's UTF-8 bytes as `querystring.escape` does. -/
def escapeQsChars (s : String) : List Char :=
  (utf8Bytes s).flatMap (fun n =>
    if isUnreservedByte n then [Char.ofNat n]
    else ['%', hexDigitUpper (n / 16), hexDigitUpper (n % 16)])

/-- Node's `stringifyPrimitive`: strings pass through, numbers and
booleans are coerced, every other value becomes the empty string. -/
def qsStringifyPrimitive : JsValue → String
  | JsValue.str s => s
  | JsValue.num n => toString n
  | JsValue.nan => "NaN"
  | JsValue.bool b => if b then "true" else "false"
  | _ => ""

/-- Characters of `querystring.stringify` over a pair list. -/
def qsStringifyChars : List (String × JsValue) → List Char
  | [] => []
  | [(k, v)] => escapeQsChars k ++ '=' :: escapeQsChars (qsStringifyPrimitive v)
  | (k, v) :: rest =>
    escapeQsChars k ++ '=' :: escapeQsChars (qsStringifyPrimitive v) ++ '&' :: qsStringifyChars rest

/-- Model of `querystring.stringify`. -/
def qsStringifyPairs (qs : List (String × JsValue)) : String :=
  String.mk (qsStringifyChars qs)

/-- Escape one character for a JSON string literal. -/
def jsonEscapeChar (c : Char) : List Char :=
  if c = dquoteC then ['\\', dquoteC]
  else if c = '\\' then ['\\', '\\']
  else if c = '\n' then ['\\', 'n']
  else if c = '\r' then ['\\', 'r']
  else if c = '\t' then ['\\', 't']
  else if c.toNat < 32 then
    ['\\', 'u', '0', '0', hexDigitUpper (c.toNat / 16), hexDigitUpper (c.toNat % 16)]
  else [c]

mutual

/-- Characters of `JSON.stringify` of a value (`NaN` serializes as null). -/
def jsonStringifyChars : JsValue → List Char
  | JsValue.null => ['n', 'u', 'l', 'l']
  | JsValue.bool b => if b then ['t', 'r', 'u', 'e'] else ['f', 'a', 'l', 's', 'e']
  | JsValue.num n => (toString n).data
  | JsValue.nan => ['n', 'u', 'l', 'l']
  | JsValue.str s => dquoteC :: s.data.flatMap jsonEscapeChar ++ [dquoteC]
  | JsValue.arr xs => '[' :: jsonStringifyList xs ++ [']']
  | JsValue.obj fields => lbraceC :: jsonStringifyFields fields ++ [rbraceC]

/-- Comma-separated serializations of array elements. -/
def jsonStringifyList : List JsValue → List Char
  | [] => []
  | [x] => jsonStringifyChars x
  | x :: rest => jsonStringifyChars x ++ ',' :: jsonStringifyList rest

/-- Comma-separated serializations of object members. -/
def jsonStringifyFields : List (String × JsValue) → List Char
  | [] => []
  | [(k, v)] => dquoteC :: k.data.flatMap jsonEscapeChar ++ dquoteC :: ':' :: jsonStringifyChars v
  | (k, v) :: rest =>
    dquoteC :: k.data.flatMap jsonEscapeChar ++ dquoteC :: ':' :: jsonStringifyChars v
      ++ ',' :: jsonStringifyFields rest

end

/-- Model of `JSON.stringify`. -/
def jsonStringify (v : JsValue) : String :=
  String.mk (jsonStringifyChars v)

/-- Error objects as this module builds them: `new Error(msg)` plus the
`statusCode`, `code` and `errorCode` properties the source assigns. A
`none` field is an unset (or assigned-`undefined`) property. -/
structure JsError where
  message : Option JsValue
  statusCode : Option Int
  code : Option JsValue
  errorCode : Option JsValue

/-- What a response handler does once the body has been read: invoke the
completion callback with an error slot and a result slot, or raise an
uncaught exception (so the callback is never invoked). -/
inductive Outcome where
  | callback : Option JsError → Option JsValue → Outcome
  | thrown : Outcome

/-- Property read `v.name`: reading a property of `null` throws
(`none`); on a non-object the result is `undefined` (`some none`). An
expando property previously assigned onto an array is not tracked. -/
def jsGetField (v : JsValue) (name : String) : Option (Option JsValue) :=
  match v with
  | JsValue.null => none
  | JsValue.obj fields => some (lookupField fields name)
  | _ => some none

/-- Property write `v.name = x` under strict mode: assignment onto a
primitive or `null` throws (`none`); assignment onto an array succeeds
but the expando property is invisible at the JSON level. -/
def jsSetField (v : JsValue) (name : String) (x : JsValue) : Option JsValue :=
  match v with
  | JsValue.obj fields => some (JsValue.obj (setFieldList fields name x))
  | JsValue.arr xs => some (JsValue.arr xs)
  | _ => none

/-- Step `if (json.expires_in) json.expires_in = parseInt(json.expires_in, 10)`
of `requestComplete` (src line 447). -/
def tryExpires (json : JsValue) : Option JsValue :=
  match jsGetField json "expires_in" with
  | none => none
  | some fv =>
    if jsTruthyOpt fv then jsSetField json "expires_in" (parseIntVal (jsToStringOpt fv))
    else some json

/-- Step `if (options.grantType) json.token_type = options.grantType` of
`requestComplete` (src line 450). -/
def tryTokenType (json : JsValue) (grantType : Option String) : Option JsValue :=
  if strOptTruthy grantType then jsSetField json "token_type" (JsValue.str (grantType.getD ""))
  else some json

/-- Step `if (json.attributes) json.attributes = JSON.parse(json.attributes)`
of `requestComplete` (src line 453). -/
def tryAttributes (json : JsValue) : Option JsValue :=
  match jsGetField json "attributes" with
  | none => none
  | some fv =>
    if jsTruthyOpt fv then
      match jsonParse (jsToStringOpt fv) with
      | some parsed => jsSetField json "attributes" parsed
      | none => none
    else some json

/-- The `try` block of `requestComplete`'s below-300 branch (src lines
444-455): `none` is a caught exception (`return cb()`). -/
def tryBlock (respData : String) (grantType : Option String) : Option JsValue :=
  match jsonParse respData with
  | none => none
  | some json =>
    match tryExpires json with
    | none => none
    | some j1 =>
      match tryTokenType j1 grantType with
      | none => none
      | some j2 => tryAttributes j2

/-- The status-at-least-300 branch of `requestComplete` (src lines
430-442). For 400/401 the body is `JSON.parse`d outside any try block,
so a parse failure (or a `null` body) is an uncaught exception; the
`ret.ErrorCode !== null` test is true for an absent (`undefined`)
`ErrorCode` as well. -/
def httpErrorOutcome (statusCode : Int) (respData : String) : Outcome :=
  if statusCode = 400 ∨ statusCode = 401 then
    match jsonParse respData with
    | none => Outcome.thrown
    | some ret =>
      match jsGetField ret "ErrorCode" with
      | none => Outcome.thrown
      | some ec =>
        match ec with
        | some JsValue.null =>
          Outcome.callback
            (some { message := some (JsValue.str "Error on HTTP request"),
                    statusCode := some statusCode, code := none, errorCode := none }) none
        | _ =>
          match jsGetField ret "Error" with
          | none => Outcome.thrown
          | some ev =>
            Outcome.callback
              (some { message := ev, statusCode := some statusCode, code := ec,
                      errorCode := none }) none
  else
    Outcome.callback
      (some { message := some (JsValue.str respData), statusCode := some statusCode,
              code := none, errorCode := none }) none

/-- The `end` handler of `requestComplete` (src lines 419-463), as a pure
function of the status, accumulated body and `options.grantType`. -/
def requestComplete (statusCode : Int) (respData : String) (grantType : Option String) : Outcome :=
  if 300 ≤ statusCode then httpErrorOutcome statusCode respData
  else
    match tryBlock respData grantType with
    | none => Outcome.callback none none
    | some json => Outcome.callback none (some json)

/-- The `end` handler of `getRequestComplete` (src lines 465-485):
anything but 302 is an error with the raw body; on 302 the result is the
`Location` header (possibly absent). -/
def getRequestComplete (statusCode : Int) (respData : String) (location : Option String) : Outcome :=
  if statusCode ≠ 302 then
    Outcome.callback
      (some { message := some (JsValue.str respData), statusCode := some statusCode,
              code := none, errorCode := none }) none
  else Outcome.callback none (location.map JsValue.str)

/-- The `requiredScopes` argument of `verifyToken`: absent, a
space-delimited string, or already an array. -/
inductive ReqScopes where
  | undef : ReqScopes
  | str : String → ReqScopes
  | arr : List String → ReqScopes

/-- Normalization at src lines 508-510: a non-array is split on spaces
when truthy, else replaced by the empty array. -/
def normalizeRequiredScopes : ReqScopes → List String
  | ReqScopes.arr l => l
  | ReqScopes.str s => if s ≠ "" then jsSplit ' ' s else []
  | ReqScopes.undef => []

/-- Model of underscore's `_.difference(a, b)`: the elements of `a` not
contained in `b`, in order. -/
def jsDifference (a b : List String) : List String :=
  a.filter (fun x => !(b.contains x))

/-- The error built at src lines 513-514: message and `errorCode` are
both the string `invalid_scope`; no HTTP status is attached. -/
def invalidScopeError : JsError :=
  { message := some (JsValue.str "invalid_scope"), statusCode := none, code := none,
    errorCode := some (JsValue.str "invalid_scope") }

/-- Granted scopes at src line 511: `parsed.scope ? parsed.scope.split(' ') : []`.
When the `scope` key was repeated its value is an array and `.split`
throws (`none`). -/
def grantedScopesOf (parsed : List (String × QsVal)) : Option (List String) :=
  match qsLookup parsed "scope" with
  | some v =>
    if qsTruthy v then
      match v with
      | QsVal.str s => some (jsSplit ' ' s)
      | QsVal.arr _ => none
    else some []
  | none => some []

/-- Step `if (parsed.attributes) parsed.attributes = JSON.parse(parsed.attributes)`
of `verifyRequestComplete` (src line 517): no try block, so a parse
failure is an uncaught exception (`none`). -/
def verifyAttributesStep (parsed : List (String × QsVal)) : Option (List (String × JsValue)) :=
  let asJs := parsed.map (fun kv => (kv.1, qsValToJs kv.2))
  match qsLookup parsed "attributes" with
  | some av =>
    if qsTruthy av then
      match jsonParse (qsValToString av) with
      | some j => some (setFieldList asJs "attributes" j)
      | none => none
    else some asJs
  | none => some asJs

/-- The `end` handler of `verifyRequestComplete` (src lines 487-522), as
a pure function of the status, the required scopes and the body. -/
def verifyRequestComplete (statusCode : Int) (requiredScopes : ReqScopes) (respData : String) : Outcome :=
  if statusCode ≠ 200 then
    Outcome.callback
      (some { message := some (JsValue.str respData), statusCode := some statusCode,
              code := none, errorCode := none }) none
  else
    match grantedScopesOf (qsParse respData) with
    | none => Outcome.thrown
    | some granted =>
      if 0 < (jsDifference (normalizeRequiredScopes requiredScopes) granted).length then
        Outcome.callback (some invalidScopeError) none
      else
        match verifyAttributesStep (qsParse respData) with
        | none => Outcome.thrown
        | some finalParsed => Outcome.callback none (some (JsValue.obj finalParsed))

/-- Strict string comparison `err.message === lit`: true only for a
string message equal to the literal. -/
def errMessageIs (e : JsError) (lit : String) : Bool :=
  match e.message with
  | some (JsValue.str s) => s = lit
  | _ => false

/-- Check that the first list is an initial segment of the second. -/
def listIsInit : List Char → List Char → Bool
  | [], _ => true
  | _ :: _, [] => false
  | p :: ps, c :: cs => p = c && listIsInit ps cs

/-- String begins-with test (used for the regex and header checks). -/
def strStarts (p s : String) : Bool :=
  listIsInit p.data s.data

/-- Drop the first `n` characters of a string (`s.substring(n)`). -/
def strDropChars (s : String) (n : Nat) : String :=
  String.mk (s.data.drop n)

/-- The test `/^Invalid redirect_uri :/.test(err.message)` (src line
167): the message is coerced to a string first. -/
def invalidRedirectTest (e : JsError) : Bool :=
  strStarts "Invalid redirect_uri :" (jsToStringOpt e.message)

/-- Error remapping inside `createTokenAuthorizationCode`'s completion
callback (src lines 164-170). -/
def authCodeRemap (e : JsError) : JsError :=
  if errMessageIs e "Invalid Authorization Code" || errMessageIs e "Required param : redirect_uri" then
    { e with code := some (JsValue.str "invalid_grant") }
  else if invalidRedirectTest e then
    { e with code := some (JsValue.str "invalid_grant") }
  else e

/-- Error remapping inside `refreshToken`'s completion callback (src
lines 258-260). -/
def refreshRemap (e : JsError) : JsError :=
  if errMessageIs e "Invalid Scope" then { e with code := some (JsValue.str "invalid_scope") }
  else e

/-- The options structure fields this module reads along the modelled
paths. -/
structure SpiOptions where
  clientId : Option String := none
  clientSecret : Option String := none
  scope : Option String := none
  tokenLifetime : Option Int := none
  attributes : Option JsValue := none
  grantType : Option String := none

/-- A dispatched HTTP request descriptor. -/
structure HttpRequest where
  method : String
  urlStr : String
  headers : List (String × String)
  body : Option String

/-- Result of a dispatcher: a network request was issued, or the callback
was invoked synchronously with an error and no request was made. -/
inductive DispatchResult where
  | request : HttpRequest → DispatchResult
  | syncError : JsError → DispatchResult

/-- Characters allowed after the first in a URL scheme. -/
def schemeRestChar (c : Char) : Bool :=
  c.isAlpha || c.isDigit || c = '+' || c = '-' || c = '.'

/-- Scan the tail of a candidate scheme up to `:`. -/
def urlProtoLoop (acc : List Char) : List Char → Option String
  | [] => none
  | c :: rest =>
    if c = ':' then some (String.mk (acc.reverse.map Char.toLower ++ [':']))
    else if schemeRestChar c then urlProtoLoop (c :: acc) rest
    else none

/-- Model of `url.parse(u).protocol`: the lowercased scheme with its
colon, or `none` (null) when the string has no scheme. -/
def urlProtocol (s : String) : Option String :=
  match s.data with
  | [] => none
  | c :: rest => if c.isAlpha then urlProtoLoop [c] rest else none

/-- String concatenation coercion of an optional string
(`undefined` prints as the text `undefined`). -/
def optStrJs : Option String → String
  | none => "undefined"
  | some s => s

/-- The text of `null` versus a present protocol, for the error message
`Unsupported protocol ...`. -/
def protocolStr : Option String → String
  | none => "null"
  | some s => s

/-- Headers built by `makeRequest` (src lines 331-344), in insertion
order. -/
def makeRequestHeaders (selfKey : String) (o : SpiOptions) (body : String) : List (String × String) :=
  [("Authorization", "Basic " ++ base64OfString (optStrJs o.clientId ++ ":" ++ optStrJs o.clientSecret)),
   ("x-DNA-Api-Key", selfKey)]
  ++ (if intOptTruthy o.tokenLifetime then [("x-DNA-Token-Lifetime", toString (o.tokenLifetime.getD 0))] else [])
  ++ (if jsTruthyOpt o.attributes then [("x-DNA-Token-Attributes", jsonStringify (o.attributes.getD JsValue.null))] else [])
  ++ (if body ≠ "" then [("Content-Type", "application/x-www-form-urlencoded")] else [])

/-- The dispatch part of `makeRequest` (src lines 322-371), up to issuing
the request: transport is chosen strictly by the parsed protocol, any
other scheme invokes the callback synchronously with an error and makes
no request. -/
def makeRequest (selfUri selfKey verb uriPath body : String) (o : SpiOptions) : DispatchResult :=
  let finalUri := selfUri ++ uriPath
  let proto := urlProtocol finalUri
  if proto = some "http:" ∨ proto = some "https:" then
    DispatchResult.request
      { method := verb, urlStr := finalUri, headers := makeRequestHeaders selfKey o body,
        body := if body ≠ "" then some body else none }
  else
    DispatchResult.syncError
      { message := some (JsValue.str ("Unsupported protocol " ++ protocolStr proto)),
        statusCode := none, code := none, errorCode := none }

/-- The dispatch part of `makeGetRequest` (src lines 373-406). -/
def makeGetRequest (selfUri selfKey uriPath qs : String) : DispatchResult :=
  let finalUri := selfUri ++ uriPath ++ "?" ++ qs
  let proto := urlProtocol finalUri
  if proto = some "http:" ∨ proto = some "https:" then
    DispatchResult.request
      { method := "GET", urlStr := finalUri, headers := [("x-DNA-Api-Key", selfKey)],
        body := none }
  else
    DispatchResult.syncError
      { message := some (JsValue.str ("Unsupported protocol " ++ protocolStr proto)),
        statusCode := none, code := none, errorCode := none }

/-- The `qs` object built by `createTokenClientCredentials` (src lines
75-83), in insertion order. -/
def createTokenClientCredentialsQs (o : SpiOptions) : List (String × JsValue) :=
  [("grant_type", JsValue.str "client_credentials")]
    ++ (if jsTruthyOpt o.attributes then [("attributes", o.attributes.getD JsValue.null)] else [])
    ++ (if strOptTruthy o.scope then [("scope", JsValue.str (o.scope.getD ""))] else [])

/-- The request construction of `createTokenClientCredentials` (src lines
74-90): stringify the `qs` object and dispatch a POST to
`/tokentypes/client/tokens`. -/
def createTokenClientCredentials (selfUri selfKey : String) (o : SpiOptions) : DispatchResult :=
  let body := qsStringifyPairs (createTokenClientCredentialsQs o)
  makeRequest selfUri selfKey "POST" "/tokentypes/client/tokens" body
    { o with grantType := some "client_credentials" }

/-- Model of `setFlowVariables` (src lines 92-105): the request context
is modelled by its presence, and the result is the list of variables the
loop publishes, in loop order. No context means no variable is set. -/
def setFlowVariables (req : Option Unit) (headers : List (String × String)) : List (String × String) :=
  match req with
  | none => []
  | some _ =>
    headers.foldl
      (fun acc kv =>
        if strStarts "x-v." kv.1 then
          (if kv.2 ≠ "" then acc ++ [(strDropChars kv.1 4, kv.2)] else acc)
        else acc)
      []

/-- Object field lookup after writing the same key. -/
theorem lookupField_setFieldList_self (l : List (String × JsValue)) (name : String) (x : JsValue) :
    lookupField (setFieldList l name x) name = some x := by
  induction l with
  | nil => simp [setFieldList, lookupField]
  | cons kv rest ih =>
    obtain ⟨k, v⟩ := kv
    by_cases h : k = name
    · simp [setFieldList, lookupField, h]
    · simp [setFieldList, lookupField, h, ih]

/-- Object field lookup after writing a different key. -/
theorem lookupField_setFieldList_ne (l : List (String × JsValue)) (name k : String) (x : JsValue)
    (h : name ≠ k) : lookupField (setFieldList l name x) k = lookupField l k := by
  induction l with
  | nil => simp [setFieldList, lookupField, h]
  | cons kv rest ih =>
    obtain ⟨k0, v0⟩ := kv
    by_cases h0 : k0 = name
    · subst h0
      simp [setFieldList, lookupField, h]
    · simp [setFieldList, lookupField, h0, ih]

/-- The set difference of `_.difference` is empty exactly when every
required element is granted. -/
theorem jsDifference_eq_nil_iff (a b : List String) :
    jsDifference a b = [] ↔ ∀ x ∈ a, x ∈ b := by
  unfold jsDifference
  rw [List.filter_eq_nil_iff]
  constructor
  · intro h x hx
    have hx2 := h x hx
    rw [Bool.not_eq_true, Bool.not_eq_false'] at hx2
    exact List.elem_iff.mp hx2
  · intro h x hx
    rw [Bool.not_eq_true, Bool.not_eq_false']
    exact List.elem_iff.mpr (h x hx)

/-- The set difference is nonempty exactly when some required element is
missing from the granted set. -/
theorem jsDifference_pos_iff (a b : List String) :
    0 < (jsDifference a b).length ↔ ∃ x ∈ a, x ∉ b := by
  rw [List.length_pos_iff_ne_nil]
  constructor
  · intro h
    by_contra hc
    push_neg at hc
    exact h ((jsDifference_eq_nil_iff a b).mpr hc)
  · rintro ⟨x, hx, hnb⟩ h
    exact hnb (((jsDifference_eq_nil_iff a b).mp h) x hx)

/-- Outcome predicate: the callback is not invoked with both an error and
a result populated. -/
def notBothSlots : Outcome → Bool
  | Outcome.callback (some _) (some _) => false
  | _ => true

/-- Every branch of the token-error interpreter leaves a slot empty. -/
theorem notBothSlots_httpErrorOutcome (st : Int) (bodyStr : String) :
    notBothSlots (httpErrorOutcome st bodyStr) = true := by
  unfold httpErrorOutcome
  split
  · split
    · rfl
    · split
      · rfl
      · split
        · rfl
        · split
          · rfl
          · rfl
  · rfl

/-- C2 (counterexample): on a status-200 token response whose body is not
JSON, `requestComplete` invokes the callback with neither an error nor a
result populated, so "exactly one slot populated" fails. -/
theorem requestComplete_neither_slot_cex :
    requestComplete 200 "nope" none = Outcome.callback none none := rfl

/-- C2 (amended): for every operation and every backend response, the
completion callback is never invoked with both an error and a result
populated (though it can be invoked with neither). -/
theorem callback_never_both_populated (st : Int) (bodyStr : String) (gt : Option String)
    (loc : Option String) (rs : ReqScopes) :
    notBothSlots (requestComplete st bodyStr gt) = true
    ∧ notBothSlots (getRequestComplete st bodyStr loc) = true
    ∧ notBothSlots (verifyRequestComplete st rs bodyStr) = true := by
  refine ⟨?_, ?_, ?_⟩
  · unfold requestComplete
    split
    · exact notBothSlots_httpErrorOutcome st bodyStr
    · split
      · rfl
      · rfl
  · unfold getRequestComplete
    split
    · rfl
    · cases loc <;> rfl
  · unfold verifyRequestComplete
    split
    · rfl
    · split
      · rfl
      · split
        · rfl
        · split
          · rfl
          · rfl

/-- C3: a POST token-shaped response with status below 300 whose body
fails to parse as JSON invokes the callback with no error and no result
(success-with-no-body), never a decode-failure error. -/
theorem parse_failure_empty_success (st : Int) (bodyStr : String) (gt : Option String)
    (hst : st < 300) (hp : jsonParse bodyStr = none) :
    requestComplete st bodyStr gt = Outcome.callback none none := by
  unfold requestComplete
  rw [if_neg (by omega)]
  unfold tryBlock
  rw [hp]

/-- C3 (witness): status 200 with the non-JSON body `not json`. -/
theorem parse_failure_empty_success_witness :
    requestComplete 200 "not json" none = Outcome.callback none none :=
  parse_failure_empty_success 200 "not json" none (by decide) rfl

/-- C4: for an uncoded backend error, the authorization-code remapping
attaches code `invalid_grant` exactly when the message is
`Invalid Authorization Code`, is `Required param : redirect_uri`, or
starts with `Invalid redirect_uri :`; any other message leaves the error
untouched. -/
theorem authCode_invalid_grant_iff (e : JsError) (h : e.code = none) :
    ((authCodeRemap e).code = some (JsValue.str "invalid_grant") ↔
      (e.message = some (JsValue.str "Invalid Authorization Code")
        ∨ e.message = some (JsValue.str "Required param : redirect_uri")
        ∨ strStarts "Invalid redirect_uri :" (jsToStringOpt e.message) = true))
    ∧ (¬(e.message = some (JsValue.str "Invalid Authorization Code")
        ∨ e.message = some (JsValue.str "Required param : redirect_uri")
        ∨ strStarts "Invalid redirect_uri :" (jsToStringOpt e.message) = true) →
      authCodeRemap e = e) := by
  have hmsg : ∀ lit : String, errMessageIs e lit = true ↔ e.message = some (JsValue.str lit) := by
    intro lit
    unfold errMessageIs
    rcases e.message with _ | v
    · simp
    · cases v <;> simp
  cases hA : (errMessageIs e "Invalid Authorization Code" || errMessageIs e "Required param : redirect_uri") with
  | true =>
    have hra : authCodeRemap e = { e with code := some (JsValue.str "invalid_grant") } := by
      unfold authCodeRemap
      rw [hA]
      simp
    have hrhs : e.message = some (JsValue.str "Invalid Authorization Code")
        ∨ e.message = some (JsValue.str "Required param : redirect_uri")
        ∨ strStarts "Invalid redirect_uri :" (jsToStringOpt e.message) = true := by
      rcases Bool.or_eq_true_iff.mp hA with h1 | h1
      · exact Or.inl ((hmsg _).mp h1)
      · exact Or.inr (Or.inl ((hmsg _).mp h1))
    refine ⟨⟨fun _ => hrhs, fun _ => by rw [hra]⟩, fun hno => absurd hrhs hno⟩
  | false =>
    have hA1 : errMessageIs e "Invalid Authorization Code" = false :=
      (Bool.or_eq_false_iff.mp hA).1
    have hA2 : errMessageIs e "Required param : redirect_uri" = false :=
      (Bool.or_eq_false_iff.mp hA).2
    cases hB : strStarts "Invalid redirect_uri :" (jsToStringOpt e.message) with
    | true =>
      have hra : authCodeRemap e = { e with code := some (JsValue.str "invalid_grant") } := by
        unfold authCodeRemap invalidRedirectTest
        rw [hA, hB]
        simp
      refine ⟨⟨fun _ => Or.inr (Or.inr rfl), fun _ => by rw [hra]⟩,
        fun hno => absurd (Or.inr (Or.inr rfl)) hno⟩
    | false =>
      have hra : authCodeRemap e = e := by
        unfold authCodeRemap invalidRedirectTest
        rw [hA, hB]
        simp
      refine ⟨⟨fun hc => ?_, fun hrhs => ?_⟩, fun _ => hra⟩
      · rw [hra, h] at hc
        exact absurd hc (by simp)
      · rcases hrhs with hm | hm | hm
        · have hx := (hmsg _).mpr hm
          rw [hA1] at hx
          exact absurd hx (by simp)
        · have hx := (hmsg _).mpr hm
          rw [hA2] at hx
          exact absurd hx (by simp)
        · exact absurd hm (by simp)

/-- C4 (witness): a backend message with the `Invalid redirect_uri :`
prefix gets code `invalid_grant`. -/
theorem authCode_invalid_grant_iff_witness :
    (authCodeRemap
        { message := some (JsValue.str "Invalid redirect_uri : https://x")
          statusCode := some 400
          code := none
          errorCode := none }).code = some (JsValue.str "invalid_grant") :=
  (authCode_invalid_grant_iff _ rfl).1.mpr (Or.inr (Or.inr (by decide)))

/-- C5: for an uncoded backend error, the refresh remapping attaches code
`invalid_scope` exactly when the message is the exact string
`Invalid Scope`; any other message leaves the error untouched. -/
theorem refresh_invalid_scope_iff (e : JsError) (h : e.code = none) :
    ((refreshRemap e).code = some (JsValue.str "invalid_scope") ↔
      e.message = some (JsValue.str "Invalid Scope"))
    ∧ (e.message ≠ some (JsValue.str "Invalid Scope") → refreshRemap e = e) := by
  have hmsg : errMessageIs e "Invalid Scope" = true ↔ e.message = some (JsValue.str "Invalid Scope") := by
    unfold errMessageIs
    rcases e.message with _ | v
    · simp
    · cases v <;> simp
  cases h1 : errMessageIs e "Invalid Scope" with
  | true =>
    have hra : refreshRemap e = { e with code := some (JsValue.str "invalid_scope") } := by
      unfold refreshRemap
      rw [h1]
      simp
    exact ⟨⟨fun _ => hmsg.mp h1, fun _ => by rw [hra]⟩, fun hno => absurd (hmsg.mp h1) hno⟩
  | false =>
    have hra : refreshRemap e = e := by
      unfold refreshRemap
      rw [h1]
      simp
    refine ⟨⟨fun hc => ?_, fun hm => ?_⟩, fun _ => hra⟩
    · rw [hra, h] at hc
      exact absurd hc (by simp)
    · have hx := hmsg.mpr hm
      rw [h1] at hx
      exact absurd hx (by simp)

/-- C5 (witness): the exact message `Invalid Scope` gets code
`invalid_scope`, and another message passes through unchanged. -/
theorem refresh_invalid_scope_iff_witness :
    (refreshRemap
        { message := some (JsValue.str "Invalid Scope")
          statusCode := some 400
          code := none
          errorCode := none }).code = some (JsValue.str "invalid_scope")
    ∧ refreshRemap
        { message := some (JsValue.str "Other")
          statusCode := some 400
          code := none
          errorCode := none } =
      { message := some (JsValue.str "Other")
        statusCode := some 400
        code := none
        errorCode := none } :=
  ⟨(refresh_invalid_scope_iff _ rfl).1.mpr rfl,
   (refresh_invalid_scope_iff _ rfl).2 (by simp)⟩

/-- C7: a dispatched request whose target URL scheme is neither `http:`
nor `https:` makes the callback receive an error synchronously
(`DispatchResult.syncError` issues no request), for both the POST and the
GET dispatcher. -/
theorem dispatch_unsupported_scheme (selfUri selfKey verb uriPath bodyStr qs : String)
    (o : SpiOptions)
    (h1 : urlProtocol (selfUri ++ uriPath) ≠ some "http:")
    (h2 : urlProtocol (selfUri ++ uriPath) ≠ some "https:")
    (h3 : urlProtocol (selfUri ++ uriPath ++ "?" ++ qs) ≠ some "http:")
    (h4 : urlProtocol (selfUri ++ uriPath ++ "?" ++ qs) ≠ some "https:") :
    makeRequest selfUri selfKey verb uriPath bodyStr o =
      DispatchResult.syncError
        { message := some (JsValue.str ("Unsupported protocol "
            ++ protocolStr (urlProtocol (selfUri ++ uriPath))))
          statusCode := none
          code := none
          errorCode := none }
    ∧ makeGetRequest selfUri selfKey uriPath qs =
      DispatchResult.syncError
        { message := some (JsValue.str ("Unsupported protocol "
            ++ protocolStr (urlProtocol (selfUri ++ uriPath ++ "?" ++ qs))))
          statusCode := none
          code := none
          errorCode := none } := by
  constructor
  · unfold makeRequest
    rw [if_neg (by rintro (h | h) <;> [exact h1 h; exact h2 h])]
  · unfold makeGetRequest
    rw [if_neg (by rintro (h | h) <;> [exact h3 h; exact h4 h])]

/-- C7 (witness): an `ftp://` base URI is rejected synchronously by both
dispatchers. -/
theorem dispatch_unsupported_scheme_witness :
    makeRequest "ftp://backend" "k" "POST" "/tokentypes/client/tokens" "b" {} =
      DispatchResult.syncError
        { message := some (JsValue.str ("Unsupported protocol "
            ++ protocolStr (urlProtocol ("ftp://backend" ++ "/tokentypes/client/tokens"))))
          statusCode := none
          code := none
          errorCode := none }
    ∧ makeGetRequest "ftp://backend" "k" "/tokentypes/implicit/tokens" "a=b" =
      DispatchResult.syncError
        { message := some (JsValue.str ("Unsupported protocol "
            ++ protocolStr (urlProtocol ("ftp://backend" ++ "/tokentypes/implicit/tokens" ++ "?" ++ "a=b"))))
          statusCode := none
          code := none
          errorCode := none } :=
  dispatch_unsupported_scheme "ftp://backend" "k" "POST" "/tokentypes/client/tokens" "b" "a=b" {}
    (by decide) (by decide) (by decide) (by decide)

/-- Unrolling of the `setFlowVariables` loop into a filter-map. -/
theorem setFlowVariables_foldl (headers : List (String × String)) (acc : List (String × String)) :
    headers.foldl
      (fun acc kv =>
        if strStarts "x-v." kv.1 then
          (if kv.2 ≠ "" then acc ++ [(strDropChars kv.1 4, kv.2)] else acc)
        else acc)
      acc
    = acc ++ headers.filterMap
        (fun kv =>
          if strStarts "x-v." kv.1 = true ∧ kv.2 ≠ "" then some (strDropChars kv.1 4, kv.2)
          else none) := by
  induction headers generalizing acc with
  | nil => simp
  | cons kv rest ih =>
    simp only [List.foldl_cons]
    by_cases h1 : strStarts "x-v." kv.1 = true
    · by_cases h2 : kv.2 = ""
      · rw [if_pos h1, if_neg (not_not_intro h2),
          List.filterMap_cons_none (by simp [h1, h2])]
        exact ih acc
      · simp only [List.filterMap_cons]
        rw [if_pos h1, if_pos h2, if_pos (And.intro h1 h2),
          ih (acc ++ [(strDropChars kv.1 4, kv.2)])]
        simp
    · rw [if_neg h1, List.filterMap_cons_none (by simp [h1])]
      exact ih acc

/-- C9: with a supplied context, every response header whose name starts
with the reserved prefix `x-v.` and whose value is non-empty publishes a
variable named by stripping the four prefix characters, and nothing
else is published (in particular an empty-valued prefixed header
publishes nothing); with no context, nothing is published. -/
theorem setFlowVariables_spec (headers : List (String × String)) :
    setFlowVariables none headers = []
    ∧ setFlowVariables (some ()) headers =
      headers.filterMap
        (fun kv =>
          if strStarts "x-v." kv.1 = true ∧ kv.2 ≠ "" then some (strDropChars kv.1 4, kv.2)
          else none) := by
  refine ⟨rfl, ?_⟩
  unfold setFlowVariables
  simpa using setFlowVariables_foldl headers []

/-- C1 (counterexample): with no required scopes and a 200 verify body
`attributes=nope`, every required scope is granted, yet the handler does
not invoke the callback with the parsed fields: `JSON.parse` of the
non-JSON `attributes` value throws uncaught (src line 517). -/
theorem verify_success_attributes_cex :
    verifyRequestComplete 200 ReqScopes.undef "attributes=nope" = Outcome.thrown := rfl

/-- C1 (amended): on a 200 verify response, granted scopes are the
space-split `scope` field of the form-decoded body (empty when absent);
a required scope missing from the granted set yields the terminal
`invalid_scope` error, and when every required scope is granted the
callback receives the parsed fields as a success result provided the
`attributes` field (when present and non-empty) parses as JSON. -/
theorem verify_scope_reconciliation (requiredScopes : ReqScopes) (bodyStr : String)
    (granted : List String) (hg : grantedScopesOf (qsParse bodyStr) = some granted) :
    ((∃ r ∈ normalizeRequiredScopes requiredScopes, r ∉ granted) →
      verifyRequestComplete 200 requiredScopes bodyStr =
        Outcome.callback (some invalidScopeError) none)
    ∧ ((∀ r ∈ normalizeRequiredScopes requiredScopes, r ∈ granted) →
      ∀ finalParsed, verifyAttributesStep (qsParse bodyStr) = some finalParsed →
        verifyRequestComplete 200 requiredScopes bodyStr =
          Outcome.callback none (some (JsValue.obj finalParsed))) := by
  constructor
  · intro hmiss
    have hpos : 0 < (jsDifference (normalizeRequiredScopes requiredScopes) granted).length :=
      (jsDifference_pos_iff _ _).mpr hmiss
    simp [verifyRequestComplete, hg, hpos]
  · intro hall finalParsed hattr
    have hz : jsDifference (normalizeRequiredScopes requiredScopes) granted = [] :=
      (jsDifference_eq_nil_iff _ _).mpr hall
    simp [verifyRequestComplete, hg, hz, hattr]

/-- C1 (witness): required scopes `read write` against granted scopes
`read` fail with the `invalid_scope` error; against granted scopes
`read write admin` the callback receives the parsed fields. -/
theorem verify_scope_reconciliation_witness :
    verifyRequestComplete 200 (ReqScopes.str "read write") "scope=read" =
      Outcome.callback (some invalidScopeError) none
    ∧ verifyRequestComplete 200 (ReqScopes.str "read write") "scope=read+write+admin" =
      Outcome.callback none (some (JsValue.obj [("scope", JsValue.str "read write admin")])) :=
  ⟨(verify_scope_reconciliation (ReqScopes.str "read write") "scope=read" ["read"] rfl).1
      ⟨"write", by decide, by decide⟩,
   (verify_scope_reconciliation (ReqScopes.str "read write") "scope=read+write+admin"
      ["read", "write", "admin"] rfl).2 (by decide) _ rfl⟩

/-- C6 (counterexample): a 400 response whose JSON body is the empty
object lacks `ErrorCode`/`Error`; since `undefined !== null` the handler
still assigns them, so the callback error has an undefined message and
no raw body, where the claim expects the raw body `\x7b\x7d` with no
code. -/
theorem tokenError_absent_fields_cex :
    requestComplete 400 "\x7b\x7d" none =
      Outcome.callback
        (some { message := none
                statusCode := some 400
                code := none
                errorCode := none }) none := rfl

/-- C6 (amended): on status at least 300, a status other than 400/401
surfaces the status and raw body uncoded; for 400/401 the body is
`JSON.parse`d outside any try block, so a non-JSON body throws and no
callback occurs, and for a JSON-object body the error takes
`code = ErrorCode` and `message = Error` whenever `ErrorCode` is
anything but literal null — including when both fields are absent, which
yields an undefined message and code rather than the raw body; only a
literal-null `ErrorCode` keeps the default message, uncoded. -/
theorem tokenError_branches (st : Int) (bodyStr : String) (gt : Option String)
    (h3 : 300 ≤ st) :
    (st ≠ 400 → st ≠ 401 →
      requestComplete st bodyStr gt =
        Outcome.callback
          (some { message := some (JsValue.str bodyStr)
                  statusCode := some st
                  code := none
                  errorCode := none }) none)
    ∧ ((st = 400 ∨ st = 401) → jsonParse bodyStr = none →
      requestComplete st bodyStr gt = Outcome.thrown)
    ∧ (∀ fields, (st = 400 ∨ st = 401) → jsonParse bodyStr = some (JsValue.obj fields) →
        (∀ ecv, lookupField fields "ErrorCode" = some ecv → ecv ≠ JsValue.null →
          requestComplete st bodyStr gt =
            Outcome.callback
              (some { message := lookupField fields "Error"
                      statusCode := some st
                      code := some ecv
                      errorCode := none }) none)
        ∧ (lookupField fields "ErrorCode" = none →
          requestComplete st bodyStr gt =
            Outcome.callback
              (some { message := lookupField fields "Error"
                      statusCode := some st
                      code := none
                      errorCode := none }) none)
        ∧ (lookupField fields "ErrorCode" = some JsValue.null →
          requestComplete st bodyStr gt =
            Outcome.callback
              (some { message := some (JsValue.str "Error on HTTP request")
                      statusCode := some st
                      code := none
                      errorCode := none }) none)) := by
  have hmain : requestComplete st bodyStr gt = httpErrorOutcome st bodyStr := by
    unfold requestComplete
    rw [if_pos h3]
  refine ⟨?_, ?_, ?_⟩
  · intro h400 h401
    rw [hmain]
    unfold httpErrorOutcome
    rw [if_neg (by rintro (hh | hh) <;> [exact h400 hh; exact h401 hh])]
  · intro h44 hp
    rw [hmain]
    unfold httpErrorOutcome
    rw [if_pos h44, hp]
  · intro fields h44 hp
    refine ⟨?_, ?_, ?_⟩
    · intro ecv hec hne
      rw [hmain]
      unfold httpErrorOutcome
      rw [if_pos h44, hp]
      simp only [jsGetField, hec]
      cases ecv with
      | null => exact absurd rfl hne
      | bool b => rfl
      | num n => rfl
      | nan => rfl
      | str s => rfl
      | arr xs => rfl
      | obj f => rfl
    · intro hec
      rw [hmain]
      unfold httpErrorOutcome
      rw [if_pos h44, hp]
      simp only [jsGetField, hec]
    · intro hec
      rw [hmain]
      unfold httpErrorOutcome
      rw [if_pos h44, hp]
      simp only [jsGetField, hec]

/-- C6 (witness): a 400 response with JSON body carrying
`ErrorCode`/`Error` surfaces them as the error's code and message. -/
theorem tokenError_branches_witness :
    requestComplete 400 "\x7b\"ErrorCode\":\"e1\",\"Error\":\"m1\"\x7d" none =
      Outcome.callback
        (some { message := some (JsValue.str "m1")
                statusCode := some 400
                code := some (JsValue.str "e1")
                errorCode := none }) none :=
  (((tokenError_branches 400 "\x7b\"ErrorCode\":\"e1\",\"Error\":\"m1\"\x7d" none
        (by decide)).2.2 [("ErrorCode", JsValue.str "e1"), ("Error", JsValue.str "m1")]
      (Or.inl rfl) rfl).1 (JsValue.str "e1") rfl (by intro hh; cases hh))

/-- Throw-free JSON-level field read, used to state result properties. -/
def jsObjGet : JsValue → String → Option JsValue
  | JsValue.obj f, name => lookupField f name
  | _, _ => none

/-- On an all-digit nonempty string, `parseInt` yields its decimal value
as a number (never NaN, never a string). -/
theorem parseIntVal_digits (s : String) (hne : s ≠ "") (hd : s.data.all Char.isDigit = true) :
    parseIntVal s = JsValue.num (Int.ofNat (digitsToNat s.data)) := by
  have hdata : s.data ≠ [] := by
    intro hh
    exact hne (by cases s; simp at hh; rw [hh])
  obtain ⟨c, cs, hc⟩ := List.exists_cons_of_ne_nil hdata
  have hcd : c.isDigit = true := List.all_eq_true.mp hd c (by rw [hc]; exact List.mem_cons_self c cs)
  have hws : isWsChar c = false := by
    unfold isWsChar
    have h1 : ¬c = ' ' := fun hh => by rw [hh] at hcd; exact absurd hcd (by decide)
    have h2 : ¬c = '\t' := fun hh => by rw [hh] at hcd; exact absurd hcd (by decide)
    have h3 : ¬c = '\n' := fun hh => by rw [hh] at hcd; exact absurd hcd (by decide)
    have h4 : ¬c = '\r' := fun hh => by rw [hh] at hcd; exact absurd hcd (by decide)
    simp [h1, h2, h3, h4]
  have hminus : ¬c = '-' := fun hh => by rw [hh] at hcd; exact absurd hcd (by decide)
  have hplus : ¬c = '+' := fun hh => by rw [hh] at hcd; exact absurd hcd (by decide)
  have hskip : skipWsL s.data = c :: cs := by
    rw [hc]
    unfold skipWsL
    rw [hws]
    simp
  have htake : (c :: cs).takeWhile Char.isDigit = c :: cs := by
    rw [List.takeWhile_eq_self_iff]
    intro x hx
    exact List.all_eq_true.mp hd x (by rw [hc]; exact hx)
  have hsplit : digitsSplit (c :: cs) = some (digitsToNat (c :: cs), []) := by
    unfold digitsSplit
    rw [htake]
    simp
  unfold parseIntVal parseIntJs
  rw [hskip]
  simp [hminus, hplus, hsplit, hc]

/-- The error interpreter never produces a populated result slot. -/
theorem httpErrorOutcome_result_none (st : Int) (bodyStr : String) (e : Option JsError)
    (r : Option JsValue) (h : httpErrorOutcome st bodyStr = Outcome.callback e r) : r = none := by
  unfold httpErrorOutcome at h
  split at h
  · split at h
    · exact Outcome.noConfusion h
    · split at h
      · exact Outcome.noConfusion h
      · split at h
        · exact (Outcome.callback.inj h).2.symm
        · split at h
          · exact Outcome.noConfusion h
          · exact (Outcome.callback.inj h).2.symm
  · exact (Outcome.callback.inj h).2.symm

/-- The `token_type` overwrite keeps the result an object and does not
touch `expires_in`. -/
theorem tryTokenType_preserves (F : List (String × JsValue)) (gt : Option String) :
    ∃ F2, tryTokenType (JsValue.obj F) gt = some (JsValue.obj F2)
      ∧ lookupField F2 "expires_in" = lookupField F "expires_in" := by
  unfold tryTokenType
  cases hgt : strOptTruthy gt with
  | false =>
    refine ⟨F, ?_, rfl⟩
    simp
  | true =>
    refine ⟨setFieldList F "token_type" (JsValue.str (gt.getD "")), ?_, ?_⟩
    · simp [jsSetField]
    · exact lookupField_setFieldList_ne F "token_type" "expires_in" _ (by decide)

/-- The `attributes` re-parse keeps the result an object and does not
touch `expires_in`. -/
theorem tryAttributes_preserves (F : List (String × JsValue)) (j : JsValue)
    (h : tryAttributes (JsValue.obj F) = some j) :
    ∃ F3, j = JsValue.obj F3 ∧ lookupField F3 "expires_in" = lookupField F "expires_in" := by
  unfold tryAttributes at h
  simp only [jsGetField] at h
  by_cases htr : jsTruthyOpt (lookupField F "attributes") = true
  · rw [if_pos htr] at h
    cases hjp : jsonParse (jsToStringOpt (lookupField F "attributes")) with
    | none =>
      rw [hjp] at h
      exact Option.noConfusion h
    | some parsed =>
      rw [hjp] at h
      simp only [jsSetField] at h
      refine ⟨setFieldList F "attributes" parsed, (Option.some.inj h).symm, ?_⟩
      exact lookupField_setFieldList_ne F "attributes" "expires_in" _ (by decide)
  · rw [if_neg htr] at h
    exact ⟨F, (Option.some.inj h).symm, rfl⟩

/-- C8: whenever the backend JSON of a successful token response carries
`expires_in` as a nonempty all-digit string, the result handed to the
callback carries `expires_in` as a number (an integer), never a string. -/
theorem expires_in_integer (st : Int) (bodyStr s : String) (gt : Option String)
    (fields : List (String × JsValue)) (j : JsValue)
    (hp : jsonParse bodyStr = some (JsValue.obj fields))
    (he : lookupField fields "expires_in" = some (JsValue.str s))
    (hne : s ≠ "") (hd : s.data.all Char.isDigit = true)
    (hr : requestComplete st bodyStr gt = Outcome.callback none (some j)) :
    ∃ n : Int, jsObjGet j "expires_in" = some (JsValue.num n) := by
  by_cases h3 : 300 ≤ st
  · exfalso
    unfold requestComplete at hr
    rw [if_pos h3] at hr
    exact Option.noConfusion (httpErrorOutcome_result_none st bodyStr none (some j) hr)
  · unfold requestComplete at hr
    rw [if_neg h3] at hr
    cases htb : tryBlock bodyStr gt with
    | none =>
      rw [htb] at hr
      exact Option.noConfusion (Outcome.callback.inj hr).2
    | some json =>
      rw [htb] at hr
      have hj : json = j := Option.some.inj (Outcome.callback.inj hr).2
      subst hj
      unfold tryBlock at htb
      rw [hp] at htb
      have hte : tryExpires (JsValue.obj fields) =
          some (JsValue.obj (setFieldList fields "expires_in" (parseIntVal s))) := by
        unfold tryExpires
        simp only [jsGetField, he]
        rw [if_pos (by simp [jsTruthyOpt, jsTruthy, hne])]
        simp [jsSetField, jsToStringOpt, jsToString]
      replace htb :
          (match tryExpires (JsValue.obj fields) with
            | none => none
            | some j1 =>
              match tryTokenType j1 gt with
              | none => none
              | some j2 => tryAttributes j2) = some json := htb
      rw [hte] at htb
      obtain ⟨F2, hf2, hf2e⟩ :=
        tryTokenType_preserves (setFieldList fields "expires_in" (parseIntVal s)) gt
      replace htb :
          (match tryTokenType (JsValue.obj (setFieldList fields "expires_in" (parseIntVal s))) gt with
            | none => none
            | some j2 => tryAttributes j2) = some json := htb
      rw [hf2] at htb
      replace htb : tryAttributes (JsValue.obj F2) = some json := htb
      obtain ⟨F3, hf3, hf3e⟩ := tryAttributes_preserves F2 json htb
      refine ⟨Int.ofNat (digitsToNat s.data), ?_⟩
      rw [hf3]
      show lookupField F3 "expires_in" = _
      rw [hf3e, hf2e, lookupField_setFieldList_self,
        parseIntVal_digits s hne hd]

/-- C8 (witness): a 200 response with body carrying `expires_in` as the
numeric string `3600` ends with `expires_in` as the integer 3600. -/
theorem expires_in_integer_witness :
    ∃ n : Int,
      jsObjGet (JsValue.obj [("expires_in", JsValue.num 3600)]) "expires_in" =
        some (JsValue.num n) :=
  expires_in_integer 200 "\x7b\"expires_in\":\"3600\"\x7d" "3600" none
    [("expires_in", JsValue.str "3600")] (JsValue.obj [("expires_in", JsValue.num 3600)])
    rfl rfl (by decide) (by decide) rfl

/-- Concrete client-credentials options with custom attributes set. -/
def attributesOptions : SpiOptions :=
  { clientId := some "id"
    clientSecret := some "sec"
    attributes := some (JsValue.obj [("a", JsValue.str "b")]) }

/-- The stringified client-credentials body always starts with the
`grant_type` pair and is never empty. -/
theorem qsStringify_cc_ne_empty (rest : List (String × JsValue)) :
    qsStringifyPairs (("grant_type", JsValue.str "client_credentials") :: rest) ≠ "" := by
  unfold qsStringifyPairs
  intro hh
  have hl : qsStringifyChars (("grant_type", JsValue.str "client_credentials") :: rest) = [] :=
    congrArg String.data hh
  cases rest with
  | nil => simp [qsStringifyChars] at hl
  | cons y ys => simp [qsStringifyChars] at hl

/-- C10 (counterexample): for client-credentials options carrying
attributes, the dispatched request includes the
`x-DNA-Token-Attributes` header (set by `makeRequest` whenever
`options.attributes` is set), contradicting the claim that attributes
travel in the body rather than via the attributes header. -/
theorem clientCredentials_attributes_header_cex :
    (match createTokenClientCredentials "http://h" "k" attributesOptions with
      | DispatchResult.request r => r.headers.map Prod.fst
      | DispatchResult.syncError _ => []) =
    ["Authorization", "x-DNA-Api-Key", "x-DNA-Token-Attributes", "Content-Type"] := rfl

/-- C10 (amended): the client-credentials POST body contains exactly
`grant_type=client_credentials`, plus `attributes` when set and `scope`
when set, and no other parameters; attributes for this grant travel in
the body and additionally in the `x-DNA-Token-Attributes` request
header, which is set whenever attributes is set. -/
theorem clientCredentials_request_shape (selfUri selfKey : String) (o : SpiOptions) :
    (createTokenClientCredentialsQs o).map Prod.fst =
        ["grant_type"]
          ++ (if jsTruthyOpt o.attributes = true then ["attributes"] else [])
          ++ (if strOptTruthy o.scope = true then ["scope"] else [])
    ∧ lookupField (createTokenClientCredentialsQs o) "grant_type" =
        some (JsValue.str "client_credentials")
    ∧ (∀ s, o.scope = some s → s ≠ "" →
        ("scope", JsValue.str s) ∈ createTokenClientCredentialsQs o)
    ∧ (∀ a, o.attributes = some a → jsTruthy a = true →
        ("attributes", a) ∈ createTokenClientCredentialsQs o)
    ∧ (∀ r, createTokenClientCredentials selfUri selfKey o = DispatchResult.request r →
        r.body = some (qsStringifyPairs (createTokenClientCredentialsQs o))
        ∧ (jsTruthyOpt o.attributes = true →
            ("x-DNA-Token-Attributes", jsonStringify (o.attributes.getD JsValue.null))
              ∈ r.headers)) := by
  refine ⟨?_, ?_, ?_, ?_, ?_⟩
  · unfold createTokenClientCredentialsQs
    by_cases ha : jsTruthyOpt o.attributes = true <;>
      by_cases hs : strOptTruthy o.scope = true <;>
      simp [ha, hs]
  · unfold createTokenClientCredentialsQs
    simp [lookupField]
  · intro s hsc hsne
    have hst : strOptTruthy o.scope = true := by
      rw [hsc]
      simp [strOptTruthy, hsne]
    unfold createTokenClientCredentialsQs
    rw [hsc] at hst ⊢
    simp [hst]
  · intro a hat hta
    have hatt : jsTruthyOpt o.attributes = true := by
      rw [hat]
      simpa [jsTruthyOpt] using hta
    unfold createTokenClientCredentialsQs
    rw [hat] at hatt ⊢
    simp [hatt]
  · intro r hreq
    unfold createTokenClientCredentials makeRequest at hreq
    by_cases hcond : urlProtocol (selfUri ++ "/tokentypes/client/tokens") = some "http:"
        ∨ urlProtocol (selfUri ++ "/tokentypes/client/tokens") = some "https:"
    · rw [if_pos hcond] at hreq
      have hrec := DispatchResult.request.inj hreq
      constructor
      · rw [← hrec]
        exact if_pos (qsStringify_cc_ne_empty _)
      · intro hatr
        rw [← hrec]
        simp [makeRequestHeaders, hatr]
    · rw [if_neg hcond] at hreq
      exact DispatchResult.noConfusion hreq

/-- C10 (witness): with attributes set (and no scope), the body carries
exactly `grant_type` and `attributes`, with the attributes value in the
body pair list. -/
theorem clientCredentials_request_shape_witness :
    ("attributes", JsValue.obj [("a", JsValue.str "b")])
        ∈ createTokenClientCredentialsQs attributesOptions
    ∧ (createTokenClientCredentialsQs attributesOptions).map Prod.fst =
        ["grant_type"]
          ++ (if jsTruthyOpt attributesOptions.attributes = true then ["attributes"] else [])
          ++ (if strOptTruthy attributesOptions.scope = true then ["scope"] else []) :=
  ⟨(clientCredentials_request_shape "http://h" "k" attributesOptions).2.2.2.1
      (JsValue.obj [("a", JsValue.str "b")]) rfl rfl,
   (clientCredentials_request_shape "http://h" "k" attributesOptions).1⟩
